import Mathlib

/-!
# Verification of the CloudMonitorApp `api.js` client

A shallow embedding of the two classes of the repository:

* `API` (src/API.js) — a client for one REST resource collection, with
  debounced `get`/`show`, immediate `post`/`update`/`delete`, a mutable
  parameter bag merged via `Object.assign`, `loading`/`saving` flags and
  callbacks;
* `ApiException` (src/unnamed/part_000) — wraps a failed response, logging it
  and emitting it once on the global event bus.

JavaScript objects used as parameter bags are modelled as association lists
with string keys (`Params`); `Object.assign` is modelled key by key in source
order (`objAssign`).  The single-threaded event loop is modelled by an
explicit `World` holding the pending `setTimeout` timers, the log of
dispatched network calls, the console log, the event-bus log and the log of
callback invocations; scheduling, firing a timer and resolving a response are
separate functions, mirroring the suspension points of the async code.

Timer handles returned by `setTimeout` are positive integers in the browser,
hence always truthy; the field `_debouncing` starts as `null` and afterwards
always holds a (truthy) handle, because `clearTimeout` does not reset the
variable.  This is modelled by `Option Nat` with handles allocated from 1.
-/

set_option autoImplicit false

namespace CloudMonitorApi

/-- A JavaScript primitive value as it occurs in parameter bags. -/
inductive JVal where
  | vNum (n : Int)
  | vStr (s : String)
  | vBool (b : Bool)
  deriving DecidableEq, Repr

/-- A JavaScript object used as a parameter bag: an ordered association list
with string keys.  Objects built from literals have pairwise distinct keys. -/
abbrev Params := List (String × JVal)

/-- Property access `o[k]`: the value at the first occurrence of key `k`. -/
def getKey (ps : Params) (k : String) : Option JVal :=
  (ps.find? (fun p => p.1 = k)).map (fun p => p.2)

/-- Assignment `o[k] = v` as performed by `Object.assign`: overwrite the key
in place when present, append it otherwise. -/
def setKey (ps : Params) (k : String) (v : JVal) : Params :=
  if ps.any (fun p => p.1 = k) then
    ps.map (fun p => if p.1 = k then (k, v) else p)
  else
    ps ++ [(k, v)]

/-- Model of `Object.assign(target, source)`: copy the source's own keys onto the
target in source order, mutating the target. -/
def objAssign (target source : Params) : Params :=
  source.foldl (fun acc kv => setKey acc kv.1 kv.2) target

/-- A record of the remote resource, as returned inside `r.data.data`.
The `id` field is what `delete` filters on; other fields are opaque. -/
structure Record where
  id : Int
  payload : String
  deriving DecidableEq, Repr

/-- A successful `{data, meta}` response body of an index/show request. -/
structure FetchResp where
  rdata : List Record
  rmeta : Params
  deriving DecidableEq, Repr

/-- The five endpoint suffixes fixed in the constructor. -/
structure Endpoints where
  index : String
  destroy : String
  show_ : String
  store : String
  update : String
  deriving DecidableEq, Repr

def defaultEndpoints : Endpoints :=
  { index := ".index", destroy := ".destroy", show_ := ".show",
    store := ".store", update := ".update" }

/-- The instance fields of an `API` object (src/API.js, constructor).
Callbacks are opaque and named by numeric identifiers. -/
structure ApiState where
  _route : String
  _params : Params
  _meta : Params
  _raw : Option FetchResp
  _data : List Record
  _loading : Bool
  _saving : Bool
  _debounce : Nat
  _debouncing : Option Nat
  _endpoints : Endpoints
  _callback : Option Nat
  deriving DecidableEq, Repr

/-- The kind of a dispatched HTTP call. -/
inductive Verb where
  | hGet
  | hPost
  | hPut
  | hDelete
  deriving DecidableEq, Repr

/-- One dispatched network call: `window.axios.<verb>(window.route(url,
params), body?)`.  `params` is the parameter bag passed to the route
resolver at dispatch time. -/
structure NetCall where
  verb : Verb
  url : String
  params : Params
  body : Option Params
  deriving DecidableEq, Repr

/-- What a `setTimeout` closure of `get`/`show` does when it fires.  The
closure captures only the per-call callback; `this._params` is read at fire
time. -/
inductive TaskKind where
  | fetchIndex
  | fetchShow
  deriving DecidableEq, Repr

/-- A scheduled, not yet fired `setTimeout` timer. -/
structure Pending where
  tid : Nat
  delay : Nat
  kind : TaskKind
  callback : Option Nat
  deriving DecidableEq, Repr

/-- A recorded callback invocation, with the instance's flags as observable
by the callback at the moment it runs. -/
structure CbEvent where
  cb : Nat
  loadingAt : Bool
  savingAt : Bool
  deriving DecidableEq, Repr

/-- The shape of the error value handed to the `catch` handler.  In
JavaScript, reading a property of `undefined` throws; `Option` marks the
fields whose absence the `ApiException` constructor can encounter. -/
structure ErrData where
  message : Option String
  deriving DecidableEq, Repr

structure ErrResponse where
  edata : Option ErrData
  deriving DecidableEq, Repr

structure ErrVal where
  response : Option ErrResponse
  deriving DecidableEq, Repr

/-- The fields of a constructed `ApiException` object. -/
structure ApiExceptionObj where
  message : Option String
  name : String
  deriving DecidableEq, Repr

/-- The event loop's world: the `API` instance plus the ambient globals
(`setTimeout` queue, `window.axios` dispatch log, `console`, the
`window.emitter` bus) and the logs that make callback order observable. -/
structure World where
  api : ApiState
  pending : List Pending
  fired : List NetCall
  nextTid : Nat
  cbLog : List CbEvent
  consoleLog : List ErrVal
  emitted : List (String × ErrVal)
  raised : List ApiExceptionObj
  deriving DecidableEq, Repr

/-- The return value of the fluent accessor/mutator methods: either `this`
(the instance, for chaining) or a plain value (the getter branch). -/
inductive MethodRet (α : Type) where
  | self
  | value (v : α)
  deriving DecidableEq, Repr

/-- Method `data(data = null)` (src/API.js:58-65).  A provided object or array
argument is truthy (even `[]`), taking the setter branch; the `none` case is
the `null`/absent argument taking the getter branch. -/
def API.data (s : ApiState) (arg : Option (List Record)) :
    ApiState × MethodRet (List Record) :=
  match arg with
  | some d => ({ s with _data := d }, MethodRet.self)
  | none => (s, MethodRet.value s._data)

/-- Method `meta(meta = null)` (src/API.js:73-80), same truthiness pattern. -/
def API.meta (s : ApiState) (arg : Option Params) :
    ApiState × MethodRet Params :=
  match arg with
  | some m => ({ s with _meta := m }, MethodRet.self)
  | none => (s, MethodRet.value s._meta)

/-- Method `params(params)` (src/API.js:88-91): unconditional wholesale replace,
returns `this`. -/
def API.params (s : ApiState) (p : Params) : ApiState × MethodRet Params :=
  ({ s with _params := p }, MethodRet.self)

/-- Accessor `loading()` (src/API.js:248-250). -/
def API.loading (s : ApiState) : Bool := s._loading

/-- Accessor `saving()` (src/API.js:257-259). -/
def API.saving (s : ApiState) : Bool := s._saving

/-- Method `onSuccess(callback)` (src/API.js:329-332). -/
def API.onSuccess (s : ApiState) (callback : Nat) :
    ApiState × MethodRet Params :=
  ({ s with _callback := some callback }, MethodRet.self)

/-- Method `get(params = {}, callback = null)` (src/API.js:100-121).

`let _params = this._params` binds an alias of the same object, so the
`Object.assign(this._params, params)` merge persists and the trailing
`this.params(_params)` reinstalls the already-merged object (a no-op).
`clearTimeout(this._debouncing)` removes the pending timer with that handle
(a no-op for an already-fired or `null` handle) but does not reset the
`_debouncing` field, so the scheduling delay `this._debouncing ?
this._debounce : 0` tests whether any timer was ever scheduled, not whether
one is pending.  The `setTimeout` closure captures the per-call callback and
reads `this._params` at fire time (see `World.fire`). -/
def World.get (w : World) (params : Params) (callback : Option Nat) : World :=
  let s := w.api
  let pending1 := match s._debouncing with
    | some h => w.pending.filter (fun t => t.tid ≠ h)
    | none => w.pending
  let delay := match s._debouncing with
    | some _ => s._debounce
    | none => 0
  let tid := w.nextTid
  { w with
      api := { s with
        _loading := true,
        _params := objAssign s._params params,
        _debouncing := some tid },
      pending := pending1 ++ [⟨tid, delay, TaskKind.fetchIndex, callback⟩],
      nextTid := w.nextTid + 1 }

/-- Method `show(params = {}, callback = null)` (src/API.js:130-152): identical
debounce/merge mechanics to `get`, targeting the `.show` endpoint. -/
def World.show_ (w : World) (params : Params) (callback : Option Nat) : World :=
  let s := w.api
  let pending1 := match s._debouncing with
    | some h => w.pending.filter (fun t => t.tid ≠ h)
    | none => w.pending
  let delay := match s._debouncing with
    | some _ => s._debounce
    | none => 0
  let tid := w.nextTid
  { w with
      api := { s with
        _loading := true,
        _params := objAssign s._params params,
        _debouncing := some tid },
      pending := pending1 ++ [⟨tid, delay, TaskKind.fetchShow, callback⟩],
      nextTid := w.nextTid + 1 }

/-- A scheduled timer fires: its closure dispatches
`window.axios.get(window.route(this._route + suffix, this._params))` with
`this._params` read at fire time.  Firing removes the timer from the queue
but leaves `this._debouncing` holding the stale handle. -/
def World.fire (w : World) (tid : Nat) : World :=
  match w.pending.find? (fun t => t.tid = tid) with
  | none => w
  | some t =>
      { w with
          pending := w.pending.filter (fun u => u.tid ≠ tid),
          fired := w.fired ++ [
            { verb := Verb.hGet,
              url := w.api._route ++ (match t.kind with
                | TaskKind.fetchIndex => w.api._endpoints.index
                | TaskKind.fetchShow => w.api._endpoints.show_),
              params := w.api._params,
              body := none }] }

/-- Run every due timer, in scheduling order. -/
def World.fireAll (w : World) : World :=
  (w.pending.map (fun t => t.tid)).foldl World.fire w

/-- The `.then` continuation of the index GET (src/API.js:107-115) on a
successful response: replace data and meta, clear loading, then invoke the
per-call callback if provided. -/
def World.indexThen (w : World) (callback : Option Nat) (r : FetchResp) :
    World :=
  let s1 := { w.api with _data := r.rdata, _meta := r.rmeta, _loading := false }
  let w1 := { w with api := s1 }
  match callback with
  | some c => { w1 with cbLog := w1.cbLog ++ [⟨c, s1._loading, s1._saving⟩] }
  | none => w1

/-- The `.then` continuation of the show GET (src/API.js:137-146):
additionally stores the raw response body in `_raw`. -/
def World.showThen (w : World) (callback : Option Nat) (r : FetchResp) :
    World :=
  let s1 := { w.api with _data := r.rdata, _meta := r.rmeta,
                         _raw := some r, _loading := false }
  let w1 := { w with api := s1 }
  match callback with
  | some c => { w1 with cbLog := w1.cbLog ++ [⟨c, s1._loading, s1._saving⟩] }
  | none => w1

/-- A rejected index/show GET: `get` and `show` attach no rejection handler
(no `.catch` and no second `.then` argument in src/API.js:107-115,137-146),
so nothing in the repository runs and the instance state is untouched. -/
def World.fetchFailure (w : World) : World := w

/-- Method `post(params = {}, data = {}, callback = null)` (src/API.js:162-184):
immediate (non-debounced) dispatch of the store POST with the merged
parameters; the same `_params` alias no-op as in `get` makes the merge
persist.  The per-call callback is captured by the `.then` closure, modelled
by `World.storeThen`; the `.catch` closure is modelled by
`World.storeCatch`. -/
def World.post (w : World) (params : Params) (data : Params) : World :=
  let s := w.api
  let merged := objAssign s._params params
  { w with
      api := { s with _saving := true, _params := merged },
      fired := w.fired ++ [
        { verb := Verb.hPost,
          url := s._route ++ s._endpoints.store,
          params := merged,
          body := some data }] }

/-- The `.then` continuation of `post` (src/API.js:167-176) on success:
clear saving, then invoke the registered persistent callback if any, then
the per-call callback if any.  Each `CbEvent` snapshots the flags the
callback observes when it runs. -/
def World.storeThen (w : World) (callback : Option Nat) : World :=
  let s1 := { w.api with _saving := false }
  let w1 := { w with api := s1 }
  let w2 := match s1._callback with
    | some pc => { w1 with cbLog := w1.cbLog ++ [⟨pc, s1._loading, s1._saving⟩] }
    | none => w1
  match callback with
  | some c => { w2 with cbLog := w2.cbLog ++ [⟨c, s1._loading, s1._saving⟩] }
  | none => w2

/-- Method `update(params = {}, data = {}, callback = null)` (src/API.js:194-214):
like `post` but a PUT to the `.update` endpoint, with no `.catch`. -/
def World.update (w : World) (params : Params) (data : Params) : World :=
  let s := w.api
  let merged := objAssign s._params params
  { w with
      api := { s with _saving := true, _params := merged },
      fired := w.fired ++ [
        { verb := Verb.hPut,
          url := s._route ++ s._endpoints.update,
          params := merged,
          body := some data }] }

/-- The `.then` continuation of `update` (src/API.js:199-209), same shape as
`storeThen`. -/
def World.updateThen (w : World) (callback : Option Nat) : World :=
  World.storeThen w callback

/-- The observable effect of running the `ApiException` constructor: what it
wrote to the console, what it emitted on the bus, and the constructed object
(`none` when a TypeError aborted construction). -/
structure ExnEffect where
  logged : List ErrVal
  emittedE : List (String × ErrVal)
  result : Option ApiExceptionObj
  deriving DecidableEq, Repr

/-- Constructor `new ApiException(error)` (src/unnamed/part_000): `console.log(error)`
first, then `this.message = error.response.data.message` — a TypeError when
`error.response` or `error.response.data` is absent, aborting construction
before the bus emit — then `window.emitter.emit('error-message', error)`.
`result` is `none` when property access threw. -/
def ApiException.construct (error : ErrVal) : ExnEffect :=
  match error.response with
  | none => { logged := [error], emittedE := [], result := none }
  | some resp =>
      match resp.edata with
      | none => { logged := [error], emittedE := [], result := none }
      | some d =>
          { logged := [error],
            emittedE := [("error-message", error)],
            result := some { message := d.message, name := "APIException" } }

/-- Method `toString()` of `ApiException`: returns the extracted message (possibly
`undefined` when the error body had no `message` key). -/
def ApiException.toString (x : ApiExceptionObj) : Option String := x.message

/-- The `.catch` handler of `post` (src/API.js:177-179): constructs an
`ApiException` (which logs and emits) and throws it, unhandled; nothing
resets `_saving`. -/
def World.storeCatch (w : World) (e : ErrVal) : World :=
  let eff := ApiException.construct e
  { w with
      consoleLog := w.consoleLog ++ eff.logged,
      emitted := w.emitted ++ eff.emittedE,
      raised := w.raised ++ (match eff.result with
        | some x => [x]
        | none => []) }

/-- Method `delete(id, callback, params = {})` (src/API.js:224-241):
`Object.assign(this._params, params, {id: id})` merges `params` and then the
singleton `{id: id}` into the stored parameters (persisting via the same
alias no-op), and dispatches the destroy DELETE.  The per-call callback is
captured by the `.then` closure, modelled by `World.destroyThen`. -/
def World.delete (w : World) (id : Int) (params : Params) : World :=
  let s := w.api
  let merged := objAssign (objAssign s._params params) [("id", JVal.vNum id)]
  { w with
      api := { s with _params := merged },
      fired := w.fired ++ [
        { verb := Verb.hDelete,
          url := s._route ++ s._endpoints.destroy,
          params := merged,
          body := none }] }

/-- The `.then` continuation of `delete` (src/API.js:228-236) on success:
`this.data(this.data().filter(d => d.id !== id))` — the filtered array is
truthy even when empty, so the setter branch of `data` stores it — then the
per-call callback if provided. -/
def World.destroyThen (w : World) (id : Int) (callback : Option Nat) : World :=
  let filtered := w.api._data.filter (fun d => d.id ≠ id)
  let s1 := (API.data w.api (some filtered)).1
  let w1 := { w with api := s1 }
  match callback with
  | some c => { w1 with cbLog := w1.cbLog ++ [⟨c, s1._loading, s1._saving⟩] }
  | none => w1

/-- The `{data, meta}` init object optionally passed to the constructor. -/
structure InitVal where
  idata : Option (List Record)
  imeta : Option Params
  deriving DecidableEq, Repr

/-- A world with no pending timers, no dispatched calls and empty logs,
holding a given instance.  Timer handles are allocated from 1 so that every
allocated handle is truthy. -/
def freshWorld (s : ApiState) : World :=
  { api := s, pending := [], fired := [], nextTid := 1,
    cbLog := [], consoleLog := [], emitted := [], raised := [] }

/-- Constructor `constructor(route, init = null, params = {}, meta = {}, autoload =
true)` (src/API.js:23-50): initialize the fields, seed data/meta from `init`
through the `data`/`meta` methods when given, and trigger `this.get()` when
`autoload` holds and the route string is truthy (non-empty). -/
def API.new (route : String) (init : Option InitVal) (params : Params)
    (meta : Params) (autoload : Bool) : World :=
  let s : ApiState :=
    { _route := route, _params := params, _meta := meta, _raw := none,
      _data := [], _loading := false, _saving := false, _debounce := 1000,
      _debouncing := none, _endpoints := defaultEndpoints, _callback := none }
  let s1 := match init with
    | some iv => (API.meta (API.data s iv.idata).1 iv.imeta).1
    | none => s
  let w := freshWorld s1
  if autoload ∧ route ≠ "" then World.get w [] none else w

/-! ## Lemmas about the `Object.assign` model -/

theorem getKey_nil (k : String) : getKey [] k = none := rfl

theorem getKey_cons (q : String × JVal) (ps : Params) (k : String) :
    getKey (q :: ps) k = if q.1 = k then some q.2 else getKey ps k := by
  by_cases h : q.1 = k <;> simp [getKey, List.find?_cons, h]

theorem getKey_append (a b : Params) (k : String) :
    getKey (a ++ b) k = (getKey a k).or (getKey b k) := by
  cases h : List.find? (fun p => p.1 = k) a <;>
    simp [getKey, List.find?_append, h]

theorem getKey_eq_none_of_not_mem (ps : Params) (k : String)
    (h : k ∉ ps.map Prod.fst) : getKey ps k = none := by
  induction ps with
  | nil => rfl
  | cons q ps ih =>
      rw [getKey_cons]
      simp only [List.map_cons, List.mem_cons] at h
      push_neg at h
      rw [if_neg (fun hc => h.1 hc.symm), ih h.2]

theorem getKey_replace_self (ps : Params) (k : String) (v : JVal)
    (h : ps.any (fun p => p.1 = k) = true) :
    getKey (ps.map (fun p => if p.1 = k then (k, v) else p)) k = some v := by
  induction ps with
  | nil => simp at h
  | cons q ps ih =>
      by_cases hq : q.1 = k
      · simp [hq, getKey_cons]
      · have h' : ps.any (fun p => p.1 = k) = true := by
          simpa [hq] using h
        simpa [hq, getKey_cons] using ih h'

theorem getKey_replace_ne (ps : Params) (k k' : String) (v : JVal)
    (h : k' ≠ k) :
    getKey (ps.map (fun p => if p.1 = k then (k, v) else p)) k' =
      getKey ps k' := by
  induction ps with
  | nil => rfl
  | cons q ps ih =>
      by_cases hq : q.1 = k
      · have hq' : q.1 ≠ k' := by rw [hq]; exact fun hc => h hc.symm
        have hkk : ¬(k = k') := fun hc => h hc.symm
        simp [hq, getKey_cons, hkk, hq', ih]
      · by_cases hq' : q.1 = k' <;> simp [hq, hq', getKey_cons, h, ih]

theorem getKey_setKey (ps : Params) (k k' : String) (v : JVal) :
    getKey (setKey ps k v) k' = if k' = k then some v else getKey ps k' := by
  unfold setKey
  by_cases hmem : ps.any (fun p => p.1 = k) = true
  · rw [if_pos hmem]
    by_cases hk : k' = k
    · subst hk; rw [getKey_replace_self ps k' v hmem]; simp
    · rw [getKey_replace_ne ps k k' v hk, if_neg hk]
  · rw [if_neg hmem, getKey_append]
    by_cases hk : k' = k
    · subst hk
      have hnone : getKey ps k' = none := by
        refine getKey_eq_none_of_not_mem ps k' ?_
        intro hin
        obtain ⟨p, hp, hpk⟩ := List.mem_map.mp hin
        exact hmem (List.any_eq_true.mpr ⟨p, hp, by simp [hpk]⟩)
      rw [hnone, getKey_cons]
      simp
    · have h1 : getKey [(k, v)] k' = none := by
        rw [getKey_cons, if_neg (fun hc : k = k' => hk hc.symm)]
        rfl
      rw [h1, Option.or_none, if_neg hk]

theorem objAssign_nil (a : Params) : objAssign a [] = a := rfl

theorem objAssign_cons (a : Params) (q : String × JVal) (b : Params) :
    objAssign a (q :: b) = objAssign (setKey a q.1 q.2) b := rfl

/-- Lookup after `Object.assign`: the source (its keys being pairwise
distinct, as for any JavaScript object) wins on its own keys, the target
everywhere else. -/
theorem getKey_objAssign (a b : Params) (k : String)
    (hb : (b.map Prod.fst).Nodup) :
    getKey (objAssign a b) k = (getKey b k).or (getKey a k) := by
  induction b generalizing a with
  | nil => simp [objAssign_nil, getKey_nil]
  | cons q b ih =>
      rw [objAssign_cons]
      simp only [List.map_cons, List.nodup_cons] at hb
      rw [ih _ hb.2, getKey_setKey]
      by_cases hk : k = q.1
      · have hnone : getKey b k = none := by
          rw [hk]; exact getKey_eq_none_of_not_mem b _ hb.1
        rw [if_pos hk, hnone, getKey_cons, if_pos hk.symm]
        simp
      · rw [if_neg hk, getKey_cons, if_neg (fun hc : q.1 = k => hk hc.symm)]

theorem getKey_isSome_setKey (ps : Params) (k k' : String) (v : JVal)
    (h : (getKey ps k').isSome) : (getKey (setKey ps k v) k').isSome := by
  rw [getKey_setKey]
  by_cases hk : k' = k <;> simp [hk, h]

/-- Lemma: `Object.assign` never removes a key of the target. -/
theorem getKey_isSome_objAssign (a b : Params) (k : String)
    (h : (getKey a k).isSome) : (getKey (objAssign a b) k).isSome := by
  induction b generalizing a with
  | nil => simpa [objAssign_nil]
  | cons q b ih =>
      rw [objAssign_cons]
      exact ih _ (getKey_isSome_setKey _ _ _ _ h)

/-- Modelled from the spec: "`parameters` after N calls equals the shallow
union of all merged maps with later keys overwriting earlier ones" — the
lookup of a key in that union is its value in the last map of the sequence
(initial parameters first, then the merged maps in call order) that binds
it. -/
def specShallowUnionLookup (init : Params) (ms : List Params) (k : String) :
    Option JVal :=
  ((init :: ms).reverse).findSome? (fun m => getKey m k)

theorem findSome?_singleton {α β : Type} (f : α → Option β) (x : α) :
    List.findSome? f [x] = f x := by
  cases h : f x <;> simp [List.findSome?_cons, h]

theorem getKey_foldl_objAssign (init : Params) (ms : List Params) (k : String)
    (h : ∀ m ∈ ms, (m.map Prod.fst).Nodup) :
    getKey (ms.foldl objAssign init) k = specShallowUnionLookup init ms k := by
  induction ms generalizing init with
  | nil =>
      cases hg : getKey init k <;>
        simp [specShallowUnionLookup, List.findSome?_cons, hg]
  | cons m ms ih =>
      rw [List.foldl_cons, ih _ (fun x hx => h x (by simp [hx]))]
      unfold specShallowUnionLookup
      simp only [List.reverse_cons, List.findSome?_append, findSome?_singleton]
      rw [getKey_objAssign _ _ _ (h m (by simp)), Option.or_assoc]

/-! ## Sequences of parameter-merging calls -/

/-- One parameter-merging call of the spec's §8 property (fetch-all,
fetch-one, create or update) with the map it merges. -/
inductive MergeCall where
  | fetchAll (m : Params)
  | fetchOne (m : Params)
  | create (m : Params) (body : Params)
  | modify (m : Params) (body : Params)
  deriving DecidableEq, Repr

/-- The parameter map a call merges into the stored parameters. -/
def MergeCall.merged : MergeCall → Params
  | .fetchAll m => m
  | .fetchOne m => m
  | .create m _ => m
  | .modify m _ => m

/-- Run one call of the sequence through the corresponding method. -/
def World.doCall (w : World) : MergeCall → World
  | .fetchAll m => World.get w m none
  | .fetchOne m => World.show_ w m none
  | .create m b => World.post w m b
  | .modify m b => World.update w m b

/-- Run a sequence of parameter-merging calls in order. -/
def World.doCalls (w : World) (cs : List MergeCall) : World :=
  cs.foldl World.doCall w

theorem params_doCall (w : World) (c : MergeCall) :
    (World.doCall w c).api._params = objAssign w.api._params c.merged := by
  cases c <;> rfl

theorem params_doCalls (w : World) (cs : List MergeCall) :
    (World.doCalls w cs).api._params =
      (cs.map MergeCall.merged).foldl objAssign w.api._params := by
  induction cs generalizing w with
  | nil => rfl
  | cons c cs ih =>
      have : World.doCalls w (c :: cs) = World.doCalls (World.doCall w c) cs :=
        rfl
      rw [this, ih, params_doCall, List.map_cons, List.foldl_cons]

/-! ## Claim theorems -/

/-- C1 counterexample.  On a fresh client, call `get`, let its timer fire,
then call `get` again: at the second call no debounced call is pending
(`pending = []`), yet the scheduled delay is the full 1000ms debounce, not 0
— `clearTimeout` never resets `_debouncing`, so the delay tests "a timer
once existed", not "a timer is pending". -/
theorem c1_counterexample :
    (World.fire (World.get (API.new "users" none [] [] false) [] none)
        1).pending = [] ∧
    ((World.get
        (World.fire (World.get (API.new "users" none [] [] false) [] none) 1)
        [] none).pending.getLast?).map Pending.delay = some 1000 ∧
    (1000 : Nat) ≠ 0 := by
  refine ⟨by decide, ?_, by decide⟩
  decide

/-- C1 (amended): for every `get` or `show` call, the scheduled delay is 0
when no debounced call was ever scheduled on the instance (`_debouncing`
still `null`), and the configured debounce duration (default 1000ms)
otherwise — even when the previously scheduled timer already fired or was
cancelled; in particular the first call on a freshly constructed client
fires with delay 0. -/
theorem c1_debounce_delay_amended (w : World) (p : Params)
    (cb : Option Nat) (s : ApiState) :
    ((World.get w p cb).pending.getLast?).map Pending.delay =
      some (if w.api._debouncing.isSome then w.api._debounce else 0) ∧
    ((World.show_ w p cb).pending.getLast?).map Pending.delay =
      some (if w.api._debouncing.isSome then w.api._debounce else 0) ∧
    ((World.get (freshWorld { s with _debouncing := none }) p cb).pending.getLast?).map
        Pending.delay = some 0 := by
  refine ⟨?_, ?_, ?_⟩
  · cases hdb : w.api._debouncing <;>
      simp [World.get, hdb, List.getLast?_concat]
  · cases hdb : w.api._debouncing <;>
      simp [World.show_, hdb, List.getLast?_concat]
  · simp [World.get, freshWorld, List.getLast?_concat]

/-- C2 counterexample.  A single `get` on a fresh client whose network call
fails: the response has arrived (as a rejection), yet `loading` is still
true — `get` installs no rejection handler, so nothing clears the flag on
failure. -/
theorem c2_counterexample :
    (World.fetchFailure
      (World.fire (World.get (API.new "users" none [] [] false) [] none) 1)
    ).api._loading = true := by
  decide

/-- C2 (amended): for a single fetch-all or fetch-one call, `loading` is
true from the moment of the call, false again once a successful response
arrives, and false before the call on a freshly constructed (non-autoload)
client; on a failed response nothing in the repository runs, so `loading`
remains true. -/
theorem c2_loading_window_amended (w : World) (p : Params) (cb : Option Nat)
    (r : FetchResp) (route : String) (ps ms : Params) :
    (World.get w p cb).api._loading = true ∧
    (World.show_ w p cb).api._loading = true ∧
    (World.indexThen w cb r).api._loading = false ∧
    (World.showThen w cb r).api._loading = false ∧
    World.fetchFailure w = w ∧
    (API.new route none ps ms false).api._loading = false := by
  refine ⟨rfl, rfl, ?_, ?_, rfl, ?_⟩
  · cases cb <;> rfl
  · cases cb <;> rfl
  · simp [API.new, freshWorld]

/-- C8 counterexample.  An error whose body exists but carries no `message`
key (`{response:{data:{}}}`) does not crash construction: the constructor
completes (with an undefined message) and still emits on the bus, against
the claim that an absent nested shape crashes. -/
theorem c8_counterexample :
    (ApiException.construct ⟨some ⟨some ⟨none⟩⟩⟩).result =
      some { message := none, name := "APIException" } ∧
    (ApiException.construct ⟨some ⟨some ⟨none⟩⟩⟩).emittedE =
      [("error-message", ⟨some ⟨some ⟨none⟩⟩⟩)] := by
  exact ⟨rfl, rfl⟩

/-- C8 (amended): constructing a Request Error from
`{response:{data:{message:"Not found"}}}` yields `toString = "Not found"`
and publishes exactly one event on the global bus carrying the original
error object; construction crashes exactly when `error.response` or
`error.response.data` is absent (a missing `message` key alone yields an
undefined message but completes and still emits). -/
theorem c8_exception_amended :
    (ApiException.construct ⟨some ⟨some ⟨some "Not found"⟩⟩⟩).result =
      some { message := some "Not found", name := "APIException" } ∧
    ((ApiException.construct ⟨some ⟨some ⟨some "Not found"⟩⟩⟩).result.map
        ApiException.toString) = some (some "Not found") ∧
    (ApiException.construct ⟨some ⟨some ⟨some "Not found"⟩⟩⟩).emittedE =
      [("error-message", ⟨some ⟨some ⟨some "Not found"⟩⟩⟩)] ∧
    (∀ e : ErrVal, (ApiException.construct e).result = none ↔
      (e.response = none ∨ ∃ resp, e.response = some resp ∧ resp.edata = none)) := by
  refine ⟨rfl, rfl, rfl, ?_⟩
  intro e
  obtain ⟨resp⟩ := e
  cases resp with
  | none => simp [ApiException.construct]
  | some r =>
      cases hr : r.edata <;> simp [ApiException.construct, hr]

/-- C9: each fluent mutator stores the given value and returns `this` (the
instance) for chaining: `params` unconditionally, and `data`/`meta` for
every provided argument value (every object or array argument is truthy in
JavaScript, so a provided value always takes the setter branch). -/
theorem c9_fluent_setters (s : ApiState) (p m : Params) (d : List Record) :
    API.params s p = ({ s with _params := p }, MethodRet.self) ∧
    API.data s (some d) = ({ s with _data := d }, MethodRet.self) ∧
    API.meta s (some m) = ({ s with _meta := m }, MethodRet.self) := by
  exact ⟨rfl, rfl, rfl⟩

/-- C3: when a `post` (create) request fails with a structured error body,
the `saving` flag set by `post` is not reset, and exactly one `ApiException`
is raised, which logs the failure once to the console and broadcasts it once
on the global event bus. -/
theorem c3_post_failure_saving_and_error (w : World) (p d : Params)
    (e : ErrVal) (resp : ErrResponse) (dd : ErrData)
    (h1 : e.response = some resp) (h2 : resp.edata = some dd) :
    (World.storeCatch (World.post w p d) e).api._saving = true ∧
    (World.storeCatch (World.post w p d) e).consoleLog =
      (World.post w p d).consoleLog ++ [e] ∧
    (World.storeCatch (World.post w p d) e).emitted =
      (World.post w p d).emitted ++ [("error-message", e)] ∧
    (World.storeCatch (World.post w p d) e).raised =
      (World.post w p d).raised ++
        [{ message := dd.message, name := "APIException" }] := by
  refine ⟨rfl, ?_, ?_, ?_⟩ <;>
    simp [World.storeCatch, ApiException.construct, h1, h2]

/-- C3 witness. -/
theorem c3_post_failure_saving_and_error_witness :
    (World.storeCatch
        (World.post (API.new "users" none [] [] false) [] [])
        ⟨some ⟨some ⟨some "boom"⟩⟩⟩).api._saving = true ∧
    (World.storeCatch
        (World.post (API.new "users" none [] [] false) [] [])
        ⟨some ⟨some ⟨some "boom"⟩⟩⟩).consoleLog =
      (World.post (API.new "users" none [] [] false) [] []).consoleLog ++
        [⟨some ⟨some ⟨some "boom"⟩⟩⟩] ∧
    (World.storeCatch
        (World.post (API.new "users" none [] [] false) [] [])
        ⟨some ⟨some ⟨some "boom"⟩⟩⟩).emitted =
      (World.post (API.new "users" none [] [] false) [] []).emitted ++
        [("error-message", ⟨some ⟨some ⟨some "boom"⟩⟩⟩)] ∧
    (World.storeCatch
        (World.post (API.new "users" none [] [] false) [] [])
        ⟨some ⟨some ⟨some "boom"⟩⟩⟩).raised =
      (World.post (API.new "users" none [] [] false) [] []).raised ++
        [{ message := some "boom", name := "APIException" }] :=
  c3_post_failure_saving_and_error (API.new "users" none [] [] false) [] []
    ⟨some ⟨some ⟨some "boom"⟩⟩⟩ ⟨some ⟨some "boom"⟩⟩ ⟨some "boom"⟩ rfl rfl

/-- C4: after a successful `delete` of id `X`, the local data sequence is
exactly the original filtered of every record whose `id` equals `X`: no
record with id `X` remains, the result is a sublist of the original (all
other records keep their original relative order), and every record with a
different id is retained. -/
theorem c4_delete_filters_data (w : World) (id : Int) (cb : Option Nat)
    (p : Params) :
    (World.destroyThen (World.delete w id p) id cb).api._data =
      w.api._data.filter (fun r => r.id ≠ id) ∧
    (∀ r ∈ (World.destroyThen (World.delete w id p) id cb).api._data,
      r.id ≠ id) ∧
    (World.destroyThen (World.delete w id p) id cb).api._data.Sublist
      w.api._data ∧
    (∀ r ∈ w.api._data, r.id ≠ id →
      r ∈ (World.destroyThen (World.delete w id p) id cb).api._data) := by
  have hdata : (World.destroyThen (World.delete w id p) id cb).api._data =
      w.api._data.filter (fun r => r.id ≠ id) := by
    cases cb <;> rfl
  refine ⟨hdata, ?_, ?_, ?_⟩
  · intro r hr
    rw [hdata] at hr
    simpa using (List.mem_filter.mp hr).2
  · rw [hdata]; exact List.filter_sublist _
  · intro r hr hne
    rw [hdata]
    exact List.mem_filter.mpr ⟨hr, by simpa using hne⟩

/-- C7: on a successful `post`, the `.then` continuation clears `saving`
first and then invokes the registered persistent success callback (if any)
followed by the call-specific callback (if any), in that order; each
callback runs with `saving` already false (the flag it observes is recorded
in its `CbEvent`). -/
theorem c7_post_success_callbacks (w : World) (p d : Params)
    (c : Option Nat) :
    (World.storeThen (World.post w p d) c).api._saving = false ∧
    (World.storeThen (World.post w p d) c).cbLog =
      w.cbLog ++
        (match w.api._callback with
          | some pc => [⟨pc, w.api._loading, false⟩]
          | none => []) ++
        (match c with
          | some cc => [⟨cc, w.api._loading, false⟩]
          | none => []) := by
  cases hpc : w.api._callback <;> cases c <;>
    simp [World.post, World.storeThen, hpc]

/-- C5: for every sequence of parameter-merging calls
(fetch-all/fetch-one/create/update), each merging a map with pairwise
distinct keys (as any JavaScript object literal has), the stored parameters
after the sequence agree, key by key, with the shallow union of the initial
parameters and all merged maps in call order, later keys overwriting
earlier ones. -/
theorem c5_params_shallow_union (w : World) (cs : List MergeCall) (k : String)
    (h : ∀ c ∈ cs, ((MergeCall.merged c).map Prod.fst).Nodup) :
    getKey ((World.doCalls w cs).api._params) k =
      specShallowUnionLookup w.api._params (cs.map MergeCall.merged) k := by
  rw [params_doCalls]
  refine getKey_foldl_objAssign _ _ _ ?_
  intro m hm
  obtain ⟨c, hc, rfl⟩ := List.mem_map.mp hm
  exact h c hc

/-- C5 witness. -/
theorem c5_params_shallow_union_witness :
    (∀ c ∈ [MergeCall.fetchAll [("a", JVal.vNum 1), ("b", JVal.vNum 2)],
            MergeCall.create [("a", JVal.vNum 3)] [],
            MergeCall.modify [("c", JVal.vNum 4)] [],
            MergeCall.fetchOne [("b", JVal.vNum 5)]],
      ((MergeCall.merged c).map Prod.fst).Nodup) ∧
    getKey ((World.doCalls (API.new "users" none [("a", JVal.vNum 0)] [] false)
        [MergeCall.fetchAll [("a", JVal.vNum 1), ("b", JVal.vNum 2)],
         MergeCall.create [("a", JVal.vNum 3)] [],
         MergeCall.modify [("c", JVal.vNum 4)] [],
         MergeCall.fetchOne [("b", JVal.vNum 5)]]).api._params) "a" =
      specShallowUnionLookup [("a", JVal.vNum 0)]
        ([MergeCall.fetchAll [("a", JVal.vNum 1), ("b", JVal.vNum 2)],
          MergeCall.create [("a", JVal.vNum 3)] [],
          MergeCall.modify [("c", JVal.vNum 4)] [],
          MergeCall.fetchOne [("b", JVal.vNum 5)]].map MergeCall.merged) "a" :=
  ⟨by decide,
   c5_params_shallow_union (API.new "users" none [("a", JVal.vNum 0)] [] false)
     [MergeCall.fetchAll [("a", JVal.vNum 1), ("b", JVal.vNum 2)],
      MergeCall.create [("a", JVal.vNum 3)] [],
      MergeCall.modify [("c", JVal.vNum 4)] [],
      MergeCall.fetchOne [("b", JVal.vNum 5)]] "a" (by decide)⟩

/-- C6: two `get` calls issued within the debounce window (the second before
the first's timer fires) produce exactly one network call once the timers
run — the first call's timer is cancelled by the second — and that call
carries the parameters as merged at the time of the second call. -/
theorem c6_two_gets_one_network_call (w : World) (p1 p2 : Params)
    (c1 c2 : Option Nat) (hpend : w.pending = []) :
    (World.fireAll (World.get (World.get w p1 c1) p2 c2)).fired =
      w.fired ++ [{
        verb := Verb.hGet,
        url := w.api._route ++ w.api._endpoints.index,
        params := objAssign (objAssign w.api._params p1) p2,
        body := none }] ∧
    (World.get (World.get w p1 c1) p2 c2).api._params =
      objAssign (objAssign w.api._params p1) p2 := by
  cases hdb : w.api._debouncing <;>
    simp [World.get, World.fireAll, World.fire, hpend, hdb]

/-- C6 witness. -/
theorem c6_two_gets_one_network_call_witness :
    (API.new "users" none [] [] false).pending = [] ∧
    ((World.fireAll
        (World.get
          (World.get (API.new "users" none [] [] false)
            [("a", JVal.vNum 1)] none)
          [("b", JVal.vNum 2)] none)).fired =
      (API.new "users" none [] [] false).fired ++ [{
        verb := Verb.hGet,
        url := (API.new "users" none [] [] false).api._route ++
          (API.new "users" none [] [] false).api._endpoints.index,
        params := objAssign
          (objAssign (API.new "users" none [] [] false).api._params
            [("a", JVal.vNum 1)]) [("b", JVal.vNum 2)],
        body := none }] ∧
    (World.get
        (World.get (API.new "users" none [] [] false) [("a", JVal.vNum 1)] none)
        [("b", JVal.vNum 2)] none).api._params =
      objAssign
        (objAssign (API.new "users" none [] [] false).api._params
          [("a", JVal.vNum 1)]) [("b", JVal.vNum 2)]) :=
  ⟨by decide,
   c6_two_gets_one_network_call (API.new "users" none [] [] false)
     [("a", JVal.vNum 1)] [("b", JVal.vNum 2)] none none (by decide)⟩

/-- C10: `delete(id, callback, params)` merges `params` and then `{id: id}`
into the stored parameters; the `id` key remains stored after the call
(looking it up yields the deleted id), and a subsequent request on the same
client resolves its parameters with the `id` key still present. -/
theorem c10_delete_merges_and_persists_id (w : World) (id : Int)
    (p m : Params) (c : Option Nat) (hpend : w.pending = []) :
    (World.delete w id p).api._params =
      objAssign (objAssign w.api._params p) [("id", JVal.vNum id)] ∧
    getKey ((World.delete w id p).api._params) "id" = some (JVal.vNum id) ∧
    ((World.fireAll (World.get (World.delete w id p) m c)).fired.getLast?).map
        (fun nc => (getKey nc.params "id").isSome) = some true := by
  have hsingle : objAssign (objAssign w.api._params p) [("id", JVal.vNum id)] =
      setKey (objAssign w.api._params p) "id" (JVal.vNum id) := rfl
  have hid : getKey ((World.delete w id p).api._params) "id" =
      some (JVal.vNum id) := by
    show getKey (objAssign (objAssign w.api._params p)
      [("id", JVal.vNum id)]) "id" = some (JVal.vNum id)
    rw [hsingle, getKey_setKey]
    simp
  refine ⟨rfl, hid, ?_⟩
  have hfired : (World.fireAll (World.get (World.delete w id p) m c)).fired =
      (World.delete w id p).fired ++ [{
        verb := Verb.hGet,
        url := w.api._route ++ w.api._endpoints.index,
        params := objAssign ((World.delete w id p).api._params) m,
        body := none }] := by
    cases hdb : w.api._debouncing <;>
      simp [World.delete, World.get, World.fireAll, World.fire, hpend, hdb]
  rw [hfired, List.getLast?_concat]
  have hsome : (getKey ((World.delete w id p).api._params) "id").isSome := by
    rw [hid]; rfl
  simp [getKey_isSome_objAssign _ m _ hsome]

/-- C10 witness. -/
theorem c10_delete_merges_and_persists_id_witness :
    (API.new "users" none [] [] false).pending = [] ∧
    ((World.delete (API.new "users" none [] [] false) 5
        [("x", JVal.vStr "y")]).api._params =
      objAssign (objAssign (API.new "users" none [] [] false).api._params
        [("x", JVal.vStr "y")]) [("id", JVal.vNum 5)] ∧
    getKey ((World.delete (API.new "users" none [] [] false) 5
        [("x", JVal.vStr "y")]).api._params) "id" = some (JVal.vNum 5) ∧
    ((World.fireAll (World.get
        (World.delete (API.new "users" none [] [] false) 5
          [("x", JVal.vStr "y")]) [] none)).fired.getLast?).map
        (fun nc => (getKey nc.params "id").isSome) = some true) :=
  ⟨by decide,
   c10_delete_merges_and_persists_id (API.new "users" none [] [] false) 5
     [("x", JVal.vStr "y")] [] none (by decide)⟩

end CloudMonitorApi
